import Mathlib

/-!
Verification of the Bank HTTP service (`src/main.go` plus the request-ID
middleware file) against its natural-language specification.

The Go program keeps two shared `atomic.Int64` counters, `money` (the
balance) and `bank`, guarded by one `sync.Mutex`.  Two HTTP handlers,
`payHandler` and `saveHandler`, read the request body, parse it with
`strconv.Atoi`, and perform a guarded check-then-update on the counters.
A request-ID middleware resolves a correlation identifier and a
response-writer wrapper records the HTTP status.

The embedding below is sequential: each handler is a pure function from
the read request body and the pre-state of the ledger to the post-state
and the list of calls the handler makes on its `http.ResponseWriter`.
Machine integers are modelled as `Int` normalised into the `int64` range
by `wrap64` exactly where Go's wrapping arithmetic applies (`atomic.Add`
and `int64` negation).  We assume the usual 64-bit platform, where Go's
`int` is 64 bits wide, so `strconv.Atoi` accepts exactly the base-10
integers in the `int64` range.
-/

/-- Smallest `int64` value, `-2^63`. -/
def int64Min : Int := -9223372036854775808

/-- Largest `int64` value, `2^63 - 1`. -/
def int64Max : Int := 9223372036854775807

/-- `2^64`, the modulus of Go's 64-bit wrapping arithmetic. -/
def int64Mod : Int := 18446744073709551616

/-- Normalise an integer into the `int64` range by two's-complement
wraparound, as Go's `atomic.Int64.Add` and `int64` conversion do. -/
def wrap64 (x : Int) : Int :=
  (x + 9223372036854775808) % 18446744073709551616 - 9223372036854775808

/-- Accumulate the value of a base-10 digit string; `none` if any
character is not an ASCII digit.  Mirrors the digit loop of Go's
`strconv.ParseUint` for base 10. -/
def digitsVal : List Char → Nat → Option Nat
  | [], acc => some acc
  | c :: rest, acc =>
    if c.isDigit then digitsVal rest (acc * 10 + (c.toNat - 48)) else none

/-- Go's `strconv.Atoi` on a 64-bit platform: an optional `+`/`-` sign
followed by one or more ASCII digits, value within the `int64` range;
every other input (empty string, stray characters, out-of-range value)
yields an error, modelled as `none`. -/
def Atoi (s : String) : Option Int :=
  match s.data with
  | [] => none
  | c :: cs =>
    let neg : Bool := c = '-'
    let digits : List Char := if c = '-' ∨ c = '+' then cs else c :: cs
    match digits with
    | [] => none
    | _ :: _ =>
      match digitsVal digits 0 with
      | none => none
      | some n =>
        let v : Int := if neg then -(n : Int) else (n : Int)
        if int64Min ≤ v ∧ v ≤ int64Max then some v else none

/-- The shared ledger: the two `atomic.Int64` globals `money` and `bank`
of `src/main.go`. -/
structure Ledger where
  money : Int
  bank : Int
deriving DecidableEq, Repr

/-- One call a handler makes on its `http.ResponseWriter`: either an
explicit `WriteHeader(code)` or a body `Write(data)`. -/
inductive WriterEvent where
  | writeHeader (code : Nat)
  | write (data : String)
deriving DecidableEq, Repr

/-- The success response text both handlers build with `fmt.Sprintf`
from `strconv.Itoa` of the two counters. -/
def renderBalances (l : Ledger) : String :=
  "current balance: " ++ toString l.money ++ ", current bank: " ++ toString l.bank

/-- Effect of `money.Add(int64(-amt))` in `payHandler`: the balance is
updated with 64-bit wraparound (note Go's `int64` negation of the parsed
amount itself wraps at `-2^63`), `bank` untouched. -/
def debitMoney (l : Ledger) (amt : Int) : Ledger :=
  { money := wrap64 (l.money + wrap64 (-amt)), bank := l.bank }

/-- Effect of `money.Add(int64(-amt)); bank.Add(int64(amt))` in
`saveHandler`: both counters updated with 64-bit wraparound. -/
def transferMoney (l : Ledger) (amt : Int) : Ledger :=
  { money := wrap64 (l.money + wrap64 (-amt)), bank := wrap64 (l.bank + amt) }

/-- The mutex-guarded section of `payHandler` (lines 88-107 of
`src/main.go`): check `money.Load() >= amt`, on success debit and render
the post-state, otherwise answer `low balance`. -/
def payLocked (amt : Int) (st : Ledger) : Ledger × List WriterEvent :=
  if st.money ≥ amt then
    let st' := debitMoney st amt
    (st', [WriterEvent.write (renderBalances st')])
  else
    (st, [WriterEvent.write "low balance"])

/-- The mutex-guarded section of `saveHandler` (lines 129-149 of
`src/main.go`). -/
def saveLocked (amt : Int) (st : Ledger) : Ledger × List WriterEvent :=
  if st.money ≥ amt then
    let st' := transferMoney st amt
    (st', [WriterEvent.write (renderBalances st')])
  else
    (st, [WriterEvent.write "low balance for bank transfer"])

/-- Result of `io.ReadAll(r.Body)`: either the full body text or a read
error carrying `err.Error()`. -/
inductive ReadResult where
  | ok (body : String)
  | fail (msg : String)
deriving DecidableEq, Repr

/-- `payHandler` of `src/main.go`: read the body, parse it with `Atoi`,
then run the guarded debit.  Returns the ledger post-state and the
sequence of `ResponseWriter` calls. -/
def payHandler : ReadResult → Ledger → Ledger × List WriterEvent
  | .fail msg, st => (st, [WriterEvent.write ("error read HTTP body" ++ msg)])
  | .ok body, st =>
    match Atoi body with
    | none => (st, [WriterEvent.write "invalid amount"])
    | some amt => payLocked amt st

/-- `saveHandler` of `src/main.go`: read the body, parse it with `Atoi`,
then run the guarded transfer. -/
def saveHandler : ReadResult → Ledger → Ledger × List WriterEvent
  | .fail msg, st => (st, [WriterEvent.write ("error read HTTP body" ++ msg)])
  | .ok body, st =>
    match Atoi body with
    | none => (st, [WriterEvent.write "invalid amount"])
    | some amt => saveLocked amt st

/-- A request is rejected by a handler when the body read fails, the
body does not parse, or the parsed amount exceeds the balance. -/
def isRejected (st : Ledger) (r : ReadResult) : Bool :=
  match r with
  | .fail _ => true
  | .ok body =>
    match Atoi body with
    | none => true
    | some amt => decide (st.money < amt)

/-- The `responseWriter` wrapper of `src/main.go` processing the
handler's calls: it starts from the status `LoggingMiddleware` stores at
construction (200), each `WriteHeader(code)` records `code` and forwards
the call to the wrapped `http.ResponseWriter`, and each `Write` is the
promoted method of the wrapped writer, passed through unchanged.
Returns the final recorded status and the calls the wrapped writer
receives. -/
def responseWriterRun : Nat → List WriterEvent → Nat × List WriterEvent
  | status, [] => (status, [])
  | _, WriterEvent.writeHeader code :: rest =>
    let out := responseWriterRun code rest
    (out.1, WriterEvent.writeHeader code :: out.2)
  | status, WriterEvent.write data :: rest =>
    let out := responseWriterRun status rest
    (out.1, WriterEvent.write data :: out.2)

/-- Number of `WriteHeader` calls in a call sequence. -/
def countWriteHeaders (evs : List WriterEvent) : Nat :=
  evs.countP fun e =>
    match e with
    | WriterEvent.writeHeader _ => true
    | WriterEvent.write _ => false

/-- The base64 URL alphabet `A-Z a-z 0-9 - _` of
`base64.RawURLEncoding`. -/
def b64urlChar (n : Nat) : Char :=
  if n < 26 then Char.ofNat (65 + n)
  else if n < 52 then Char.ofNat (97 + (n - 26))
  else if n < 62 then Char.ofNat (48 + (n - 52))
  else if n = 62 then '-' else '_'

/-- `base64.RawURLEncoding.EncodeToString` on a byte list: groups of
three bytes become four alphabet characters; a final group of one or two
bytes becomes two or three characters, with no padding. -/
def rawURLEncode : List Nat → List Char
  | [] => []
  | [b1] => [b64urlChar (b1 / 4), b64urlChar (b1 % 4 * 16)]
  | [b1, b2] =>
    [b64urlChar (b1 / 4), b64urlChar (b1 % 4 * 16 + b2 / 16), b64urlChar (b2 % 16 * 4)]
  | b1 :: b2 :: b3 :: rest =>
    b64urlChar (b1 / 4) :: b64urlChar (b1 % 4 * 16 + b2 / 16) ::
      b64urlChar (b2 % 16 * 4 + b3 / 64) :: b64urlChar (b3 % 64) :: rawURLEncode rest

/-- `generateRequestID` of the middleware file: `crypto/rand.Read` fills
a 16-byte buffer (modelled as `some bytes`); on a randomness failure
(`none`) the fixed sentinel `fallback-id` is returned, otherwise the
base64 raw-URL encoding of the buffer. -/
def generateRequestID : Option (List Nat) → String
  | none => "fallback-id"
  | some bytes => String.mk (rawURLEncode bytes)

/-- `RequestIDMiddleware`: take the inbound `X-Request-ID` header value
(Go's `Header.Get` yields `""` when the header is absent); if it equals
`""` or the one-character string `" "`, replace it with the freshly
generated identifier.  The resolved value is attached to the request
context (first component) and set as the response `X-Request-ID` header
(second component). -/
def RequestIDMiddleware (header : String) (fresh : String) : String × String :=
  let requestID := if header = "" ∨ header = " " then fresh else header
  (requestID, requestID)

/-- `GetRequestID`: read the request-ID context value, `""` when the
context carries none. -/
def GetRequestID : Option String → String
  | some s => s
  | none => ""

/-- Which handler a concurrent request runs (`/pay` or `/save`). -/
inductive OpKind where
  | pay
  | save
deriving DecidableEq, Repr

/-- A concurrent request's ledger operation: its kind and its already
parsed amount. -/
structure ThreadOp where
  kind : OpKind
  amt : Int
deriving DecidableEq, Repr

/-- The check-passing mutation a ledger operation performs. -/
def applyOp (k : OpKind) (amt : Int) (l : Ledger) : Ledger :=
  match k with
  | OpKind.pay => debitMoney l amt
  | OpKind.save => transferMoney l amt

/-- Pointwise update of a thread-indexed map. -/
def setF {α : Type} (f : Nat → α) (t : Nat) (v : α) : Nat → α :=
  fun t' => if t' = t then v else f t'

/-- Global state of the concurrent system: the `sync.Mutex` `mtx`
(`owner` is the goroutine holding it, if any), the shared ledger, each
goroutine's program counter inside its handler's guarded section, and
each goroutine's value loaded from `money`.  Program counters: 0 before
`mtx.Lock()`, 1 holding the lock before `money.Load()`, 2 after the
load, 3 after the conditional mutation, 4 after the deferred
`mtx.Unlock()`. -/
structure MState where
  owner : Option Nat
  ledger : Ledger
  pc : Nat → Nat
  reg : Nat → Int

/-- Interleaving semantics of the guarded sections of `payHandler` and
`saveHandler` under `ops`, the pending operation of each goroutine.
`lock` models `mtx.Lock()` (enabled only while no goroutine holds the
mutex); `load` models the `money.Load()` of the check; `update` models
the check-then-act on the loaded value (`money.Add`, and `bank.Add` for
a save, when the check passes); `unlock` models the deferred
`mtx.Unlock()`. -/
inductive MStep (ops : Nat → ThreadOp) : MState → MState → Prop
  | lock (s : MState) (t : Nat) :
      s.pc t = 0 → s.owner = none →
      MStep ops s { s with owner := some t, pc := setF s.pc t 1 }
  | load (s : MState) (t : Nat) :
      s.pc t = 1 →
      MStep ops s { s with pc := setF s.pc t 2, reg := setF s.reg t s.ledger.money }
  | update (s : MState) (t : Nat) :
      s.pc t = 2 →
      MStep ops s { s with
                    pc := setF s.pc t 3,
                    ledger := if s.reg t ≥ (ops t).amt
                      then applyOp (ops t).kind (ops t).amt s.ledger
                      else s.ledger }
  | unlock (s : MState) (t : Nat) :
      s.pc t = 3 →
      MStep ops s { s with owner := none, pc := setF s.pc t 4 }

/-- Initial state: `main` stores 1000 into `money`, `bank` starts at 0,
the mutex is free and every goroutine is before its `mtx.Lock()`. -/
def initMState : MState :=
  { owner := none, ledger := { money := 1000, bank := 0 },
    pc := fun _ => 0, reg := fun _ => 0 }

/-- States reachable by interleaving the goroutines' steps. -/
inductive Reach (ops : Nat → ThreadOp) : MState → Prop
  | init : Reach ops initMState
  | step {s s' : MState} : Reach ops s → MStep ops s s' → Reach ops s'

/-- Goroutine `t` is inside its guarded read-check-write section:
holding the mutex, between `mtx.Lock()` and `mtx.Unlock()`. -/
def inCrit (s : MState) (t : Nat) : Prop :=
  1 ≤ s.pc t ∧ s.pc t ≤ 3

/-- Concrete operation assignment used to exercise the concurrent
model: every goroutine runs a pay of 10, as in the repository's
concurrency test. -/
def opsW : Nat → ThreadOp := fun _ => { kind := OpKind.pay, amt := 10 }

/-- The state after goroutine 0 acquires the mutex from the initial
state. -/
def lockedState : MState :=
  { owner := some 0, ledger := { money := 1000, bank := 0 },
    pc := setF (fun _ => 0) 0 1, reg := fun _ => 0 }

/-- Adding an already-wrapped summand wraps to the same value as adding
the original summand: `wrap64` is a homomorphism for `+` modulo
`2^64`. -/
theorem wrap64_add_wrap (x y : Int) : wrap64 (x + wrap64 y) = wrap64 (x + y) := by
  unfold wrap64
  omega

/-- The debited balance is the 64-bit wraparound of the exact
difference. -/
theorem debitMoney_money (l : Ledger) (amt : Int) :
    (debitMoney l amt).money = wrap64 (l.money - amt) := by
  unfold debitMoney
  simp only [wrap64_add_wrap]
  ring_nf

/-- A parsed pay request runs the guarded debit section. -/
theorem payHandler_parsed (body : String) (amt : Int) (st : Ledger)
    (h : Atoi body = some amt) :
    payHandler (ReadResult.ok body) st = payLocked amt st := by
  simp [payHandler, h]

/-- A parsed save request runs the guarded transfer section. -/
theorem saveHandler_parsed (body : String) (amt : Int) (st : Ledger)
    (h : Atoi body = some amt) :
    saveHandler (ReadResult.ok body) st = saveLocked amt st := by
  simp [saveHandler, h]

/-- C1 (amended): for every pay request whose body parses as a base-10
integer amount, the debit succeeds iff `money ≥ amount`; on success the
balance is decreased by exactly the amount in 64-bit wraparound
arithmetic (`wrap64 (money - amount)`, which is the exact difference
whenever it fits in `int64`), `bank` is unchanged, and the response body
renders the post-debit state; otherwise the ledger is unchanged and the
response body is exactly `low balance`. -/
theorem pay_debit_characterization (st : Ledger) (body : String) (amt : Int)
    (hp : Atoi body = some amt) :
    (st.money ≥ amt →
      payHandler (ReadResult.ok body) st =
        (debitMoney st amt, [WriterEvent.write (renderBalances (debitMoney st amt))]) ∧
      (debitMoney st amt).money = wrap64 (st.money - amt) ∧
      (debitMoney st amt).bank = st.bank) ∧
    (¬ st.money ≥ amt →
      payHandler (ReadResult.ok body) st = (st, [WriterEvent.write "low balance"])) := by
  rw [payHandler_parsed body amt st hp]
  constructor
  · intro h
    refine ⟨?_, debitMoney_money st amt, rfl⟩
    unfold payLocked
    rw [if_pos h]
  · intro h
    unfold payLocked
    rw [if_neg h]

/-- Witness: the spec scenario `balance=1000, bank=0`, body `150`. -/
theorem pay_debit_characterization_witness :
    payHandler (ReadResult.ok "150") { money := 1000, bank := 0 } =
      ({ money := 850, bank := 0 },
       [WriterEvent.write "current balance: 850, current bank: 0"]) := by
  have h :=
    (pay_debit_characterization { money := 1000, bank := 0 } "150" 150 (by decide)).1
      (by decide)
  rw [h.1]
  decide

/-- Counterexample to C1 as stated: the body
`-9223372036854775807` parses, the debit succeeds (`1000 ≥ amount`),
but the post-debit balance is not `1000 - amount`: Go's `int64`
arithmetic wraps. -/
theorem pay_debit_exact_subtraction_cex :
    Atoi "-9223372036854775807" = some (-9223372036854775807) ∧
    (1000 : Int) ≥ -9223372036854775807 ∧
    (payHandler (ReadResult.ok "-9223372036854775807")
        { money := 1000, bank := 0 }).1.money ≠ 1000 - (-9223372036854775807) := by
  decide

/-- The transferred balance and bank are the 64-bit wraparounds of the
exact difference and sum. -/
theorem transferMoney_fields (l : Ledger) (amt : Int) :
    (transferMoney l amt).money = wrap64 (l.money - amt) ∧
    (transferMoney l amt).bank = wrap64 (l.bank + amt) := by
  unfold transferMoney
  constructor
  · simp only [wrap64_add_wrap]
    ring_nf
  · rfl

/-- C2 (amended): for every save request whose transfer succeeds with
parsed amount `a`, the post-state satisfies the conservation equations
in 64-bit wraparound arithmetic — `money_after = wrap64 (money_before -
a)` and `bank_after = wrap64 (bank_before + a)` (the exact equations
`money_before = money_after + a` and `bank_after = bank_before + a`
whenever the results fit in `int64`) — and the response body renders
exactly that post-transfer pair; on insufficient funds both counters are
unchanged and the response body is exactly
`low balance for bank transfer`. -/
theorem save_transfer_characterization (st : Ledger) (body : String) (amt : Int)
    (hp : Atoi body = some amt) :
    (st.money ≥ amt →
      saveHandler (ReadResult.ok body) st =
        (transferMoney st amt,
         [WriterEvent.write (renderBalances (transferMoney st amt))]) ∧
      (transferMoney st amt).money = wrap64 (st.money - amt) ∧
      (transferMoney st amt).bank = wrap64 (st.bank + amt)) ∧
    (¬ st.money ≥ amt →
      saveHandler (ReadResult.ok body) st =
        (st, [WriterEvent.write "low balance for bank transfer"])) := by
  rw [saveHandler_parsed body amt st hp]
  constructor
  · intro h
    refine ⟨?_, transferMoney_fields st amt⟩
    unfold saveLocked
    rw [if_pos h]
  · intro h
    unfold saveLocked
    rw [if_neg h]

/-- Witness: the spec scenario `balance=1000, bank=0`, body `200`. -/
theorem save_transfer_characterization_witness :
    saveHandler (ReadResult.ok "200") { money := 1000, bank := 0 } =
      ({ money := 800, bank := 200 },
       [WriterEvent.write "current balance: 800, current bank: 200"]) := by
  have h :=
    (save_transfer_characterization { money := 1000, bank := 0 } "200" 200 (by decide)).1
      (by decide)
  rw [h.1]
  decide

/-- Counterexample to C2 as stated: from the program's initial state,
the body `-9223372036854775807` parses, the transfer succeeds, but
`money_before = money_after + amount` fails: the subtraction wraps in
`int64`. -/
theorem save_conservation_cex :
    Atoi "-9223372036854775807" = some (-9223372036854775807) ∧
    (1000 : Int) ≥ -9223372036854775807 ∧
    (saveHandler (ReadResult.ok "-9223372036854775807")
        { money := 1000, bank := 0 }).1.money + (-9223372036854775807) ≠ 1000 := by
  decide

/-- C3 (code bug): neither handler validates the sign of the parsed
amount.  A pay request with body `-100` from `money=1000, bank=0`
reaches the guarded section, trivially passes `money ≥ -100`, and
`money.Add(100)` INCREASES the balance to 1100; the response renders
the new balances instead of the required `invalid amount`.  The
repository's own test (`TestEdgeCases`, case `Negative Amount`) expects
the balance to stay 1000 on this input. -/
theorem pay_negative_amount_reaches_ledger :
    payHandler (ReadResult.ok "-100") { money := 1000, bank := 0 } =
      ({ money := 1100, bank := 0 },
       [WriterEvent.write "current balance: 1100, current bank: 0"]) ∧
    (payHandler (ReadResult.ok "-100") { money := 1000, bank := 0 }).2 ≠
      [WriterEvent.write "invalid amount"] ∧
    (payHandler (ReadResult.ok "-100") { money := 1000, bank := 0 }).1 ≠
      { money := 1000, bank := 0 } := by
  decide

/-- C4 (code bug): a save request with the negative body `-100` from
`money=1000, bank=0` passes the guard and drives `bank` to `-100`,
breaking the `bank ≥ 0` invariant; `bank` is decreased by a successful
save, which the claim rules out. -/
theorem save_negative_amount_bank_goes_negative :
    saveHandler (ReadResult.ok "-100") { money := 1000, bank := 0 } =
      ({ money := 1100, bank := -100 },
       [WriterEvent.write "current balance: 1100, current bank: -100"]) ∧
    (saveHandler (ReadResult.ok "-100") { money := 1000, bank := 0 }).1.bank < 0 := by
  decide

/-- C5: every rejected request — body-read failure, parse failure
(including an empty body), or insufficient funds — leaves both `money`
and `bank` exactly unchanged, for both handlers. -/
theorem rejected_request_preserves_ledger (st : Ledger) (r : ReadResult)
    (h : isRejected st r = true) :
    (payHandler r st).1 = st ∧ (saveHandler r st).1 = st := by
  cases r with
  | fail msg => exact ⟨rfl, rfl⟩
  | ok body =>
    cases hA : Atoi body with
    | none =>
      constructor
      · simp [payHandler, hA]
      · simp [saveHandler, hA]
    | some amt =>
      have hlt : st.money < amt := by
        simpa [isRejected, hA] using h
      have hneg : ¬ st.money ≥ amt := not_le.mpr hlt
      rw [payHandler_parsed body amt st hA, saveHandler_parsed body amt st hA]
      unfold payLocked saveLocked
      rw [if_neg hneg, if_neg hneg]
      exact ⟨rfl, rfl⟩

/-- Witness: the insufficient-funds scenario `balance=1000`,
body `1500`. -/
theorem rejected_request_preserves_ledger_witness :
    isRejected { money := 1000, bank := 0 } (ReadResult.ok "1500") = true ∧
    (payHandler (ReadResult.ok "1500") { money := 1000, bank := 0 }).1 =
      { money := 1000, bank := 0 } ∧
    (saveHandler (ReadResult.ok "1500") { money := 1000, bank := 0 }).1 =
      { money := 1000, bank := 0 } := by
  refine ⟨by decide, ?_⟩
  exact rejected_request_preserves_ledger { money := 1000, bank := 0 }
    (ReadResult.ok "1500") (by decide)

/-- C10: on every branch of `payHandler` — read failure, parse failure,
success, insufficient funds, any body whatsoever — the `bank` counter is
exactly unchanged; only `saveHandler` contains a write to `bank`. -/
theorem payHandler_preserves_bank (r : ReadResult) (st : Ledger) :
    ((payHandler r st).1).bank = st.bank := by
  cases r with
  | fail msg => rfl
  | ok body =>
    cases hA : Atoi body with
    | none => simp [payHandler, hA]
    | some amt =>
      rw [payHandler_parsed body amt st hA]
      unfold payLocked
      split
      · rfl
      · rfl

/-- Invariant of the interleaving semantics: any goroutine whose program
counter lies inside the guarded section holds the mutex. -/
theorem reach_crit_owner (ops : Nat → ThreadOp) {s : MState} (h : Reach ops s) :
    ∀ t : Nat, 1 ≤ s.pc t → s.pc t ≤ 3 → s.owner = some t := by
  induction h with
  | init =>
    intro t h1 _
    simp [initMState] at h1
  | step hr hstep ih =>
    cases hstep with
    | lock t hpc howner =>
      intro t' h1 h3
      by_cases he : t' = t
      · subst he
        rfl
      · exfalso
        have hs := ih t' (by simpa [setF, he] using h1) (by simpa [setF, he] using h3)
        rw [howner] at hs
        exact Option.noConfusion hs
    | load t hpc =>
      intro t' h1 h3
      by_cases he : t' = t
      · subst he
        exact ih t' (by simp [hpc]) (by simp [hpc])
      · refine ih t' ?_ ?_
        · simpa [setF, he] using h1
        · simpa [setF, he] using h3
    | update t hpc =>
      intro t' h1 h3
      by_cases he : t' = t
      · subst he
        exact ih t' (by simp [hpc]) (by simp [hpc])
      · refine ih t' ?_ ?_
        · simpa [setF, he] using h1
        · simpa [setF, he] using h3
    | unlock t hpc =>
      intro t' h1 h3
      exfalso
      by_cases he : t' = t
      · subst he
        simp [setF] at h3
      · have hs := ih t' (by simpa [setF, he] using h1) (by simpa [setF, he] using h3)
        have hst := ih t (by simp [hpc]) (by simp [hpc])
        rw [hst] at hs
        exact he (Option.some.inj hs).symm

/-- C6: in every state reachable by interleaving concurrent pay and save
requests, at most one goroutine is inside its guarded read-check-write
section: the `sync.Mutex` taken before the `money.Load()` check and
released after the mutation makes the section indivisible relative to
all other ledger operations. -/
theorem ledger_sections_mutually_exclusive (ops : Nat → ThreadOp) (s : MState)
    (h : Reach ops s) (t t' : Nat) (ht : inCrit s t) (ht' : inCrit s t') : t = t' := by
  have h1 := reach_crit_owner ops h t ht.1 ht.2
  have h2 := reach_crit_owner ops h t' ht'.1 ht'.2
  rw [h1] at h2
  exact Option.some.inj h2

/-- Witness: after goroutine 0 acquires the mutex from the initial
state, it is in its guarded section, and mutual exclusion holds at that
reachable state. -/
theorem ledger_sections_mutually_exclusive_witness :
    inCrit lockedState 0 ∧ 0 = 0 := by
  have hcrit : inCrit lockedState 0 := by
    constructor <;> decide
  have hreach : Reach opsW lockedState :=
    Reach.step Reach.init (MStep.lock initMState 0 rfl rfl)
  exact ⟨hcrit, ledger_sections_mutually_exclusive opsW lockedState hreach 0 0 hcrit hcrit⟩

/-- Encoding a non-empty byte list yields a non-empty character list. -/
theorem rawURLEncode_ne_nil (bs : List Nat) (h : bs ≠ []) : rawURLEncode bs ≠ [] := by
  match bs with
  | [] => exact absurd rfl h
  | [b1] => simp [rawURLEncode]
  | [b1, b2] => simp [rawURLEncode]
  | b1 :: b2 :: b3 :: rest => simp [rawURLEncode]

/-- The generated request identifier is never empty: a randomness
failure yields the sentinel `fallback-id`, and a successful 16-byte read
encodes to a 22-character string. -/
theorem generateRequestID_ne_empty (r : Option (List Nat))
    (h : r = none ∨ ∃ bs, r = some bs ∧ bs ≠ []) : generateRequestID r ≠ "" := by
  rcases h with h | ⟨bs, rfl, hbs⟩
  · subst h
    decide
  · intro he
    have hd : rawURLEncode bs = [] := by
      have := congrArg String.data he
      simpa [generateRequestID] using this
    exact rawURLEncode_ne_nil bs hbs hd

/-- C7 (amended): the middleware replaces the inbound `X-Request-ID`
value with a freshly generated identifier exactly when that value is the
empty string or the one-character string `" "`; every other value —
including other whitespace-only values — is reused verbatim.  The
resolved identifier is attached to the request context and the response
header is always set to the same value; the generated identifier is
never empty. -/
theorem requestID_resolution (header : String) (rnd : Option (List Nat))
    (hr : rnd = none ∨ ∃ bs, rnd = some bs ∧ bs ≠ []) :
    (header ≠ "" ∧ header ≠ " " →
      RequestIDMiddleware header (generateRequestID rnd) = (header, header)) ∧
    ((header = "" ∨ header = " ") →
      RequestIDMiddleware header (generateRequestID rnd) =
        (generateRequestID rnd, generateRequestID rnd)) ∧
    generateRequestID rnd ≠ "" ∧
    (RequestIDMiddleware header (generateRequestID rnd)).2 =
      (RequestIDMiddleware header (generateRequestID rnd)).1 := by
  refine ⟨?_, ?_, generateRequestID_ne_empty rnd hr, rfl⟩
  · intro h
    unfold RequestIDMiddleware
    rw [if_neg]
    push_neg
    exact h
  · intro h
    unfold RequestIDMiddleware
    rw [if_pos h]

/-- Witness: the spec scenario `X-Request-ID: abc-123` is echoed
exactly, and a randomness failure still yields a non-empty generated
identifier. -/
theorem requestID_resolution_witness :
    RequestIDMiddleware "abc-123" (generateRequestID none) = ("abc-123", "abc-123") ∧
    generateRequestID none ≠ "" := by
  have h := requestID_resolution "abc-123" none (Or.inl rfl)
  exact ⟨h.1 (by decide), h.2.2.1⟩

/-- Counterexample to C7 as stated: the two-space header value `"  "` is
whitespace-only, yet the middleware reuses it verbatim instead of
attaching a freshly generated identifier — the code only tests for `""`
and the single-character `" "`. -/
theorem requestID_whitespace_only_reused_cex :
    RequestIDMiddleware "  " (generateRequestID none) = ("  ", "  ") ∧
    ("  " : String).data = [' ', ' '] ∧
    "  " ≠ generateRequestID none := by
  decide

/-- The wrapper passes every call through to the wrapped
`http.ResponseWriter` unchanged. -/
theorem responseWriterRun_forward (s : Nat) (evs : List WriterEvent) :
    (responseWriterRun s evs).2 = evs := by
  induction evs generalizing s with
  | nil => rfl
  | cons e rest ih =>
    cases e with
    | writeHeader c => simp [responseWriterRun, ih]
    | write d => simp [responseWriterRun, ih]

/-- Body writes never change the recorded status. -/
theorem responseWriterRun_all_writes (s : Nat) (evs : List WriterEvent)
    (h : ∀ e ∈ evs, ∃ d, e = WriterEvent.write d) :
    (responseWriterRun s evs).1 = s := by
  induction evs generalizing s with
  | nil => rfl
  | cons e rest ih =>
    cases e with
    | writeHeader c =>
      obtain ⟨d, hd⟩ := h _ (List.mem_cons_self _ _)
      exact WriterEvent.noConfusion hd
    | write d =>
      simpa [responseWriterRun] using
        ih s (fun e he => h e (List.mem_cons_of_mem _ he))

/-- C8: if the wrapped handler only writes body data and never sets an
explicit status, the recorder keeps the default 200 it was constructed
with; if the handler sets an explicit status `c` before writing the
body, the recorder observes `c` and forwards exactly one status line to
the underlying writer; all calls are forwarded unchanged. -/
theorem responseWriter_status_capture (evs writes : List WriterEvent) (c : Nat)
    (hw : ∀ e ∈ writes, ∃ d, e = WriterEvent.write d) :
    ((∀ e ∈ evs, ∃ d, e = WriterEvent.write d) →
      responseWriterRun 200 evs = (200, evs)) ∧
    (responseWriterRun 200 (WriterEvent.writeHeader c :: writes)).1 = c ∧
    countWriteHeaders (responseWriterRun 200 (WriterEvent.writeHeader c :: writes)).2 = 1 ∧
    (responseWriterRun 200 evs).2 = evs := by
  refine ⟨?_, ?_, ?_, responseWriterRun_forward 200 evs⟩
  · intro h
    have h1 := responseWriterRun_all_writes 200 evs h
    have h2 := responseWriterRun_forward 200 evs
    exact Prod.ext h1 h2
  · simpa [responseWriterRun] using responseWriterRun_all_writes c writes hw
  · rw [responseWriterRun_forward]
    have hz : List.countP (fun e =>
        match e with
        | WriterEvent.writeHeader _ => true
        | WriterEvent.write _ => false) writes = 0 := by
      rw [List.countP_eq_zero]
      intro e he
      obtain ⟨d, hd⟩ := hw e he
      subst hd
      simp
    unfold countWriteHeaders
    rw [List.countP_cons, hz]
    simp

/-- Witness: the repository's `TestResponseWriter` cases — a bare body
write keeps status 200, and `WriteHeader(404)` records 404. -/
theorem responseWriter_status_capture_witness :
    responseWriterRun 200 [WriterEvent.write "test body"] =
      (200, [WriterEvent.write "test body"]) ∧
    (responseWriterRun 200 [WriterEvent.writeHeader 404]).1 = 404 := by
  have h := responseWriter_status_capture [WriterEvent.write "test body"] [] 404
    (by intro e he; cases he)
  refine ⟨h.1 ?_, h.2.1⟩
  intro e he
  rw [List.mem_singleton] at he
  exact ⟨"test body", he⟩

/-- Each handler performs exactly one `Write` and never calls
`WriteHeader` (payHandler case). -/
theorem payHandler_single_write (r : ReadResult) (st : Ledger) :
    ∃ d, (payHandler r st).2 = [WriterEvent.write d] := by
  cases r with
  | fail msg => exact ⟨_, rfl⟩
  | ok body =>
    cases hA : Atoi body with
    | none => exact ⟨"invalid amount", by simp [payHandler, hA]⟩
    | some amt =>
      rw [payHandler_parsed body amt st hA]
      unfold payLocked
      split
      · exact ⟨_, rfl⟩
      · exact ⟨_, rfl⟩

/-- Each handler performs exactly one `Write` and never calls
`WriteHeader` (saveHandler case). -/
theorem saveHandler_single_write (r : ReadResult) (st : Ledger) :
    ∃ d, (saveHandler r st).2 = [WriterEvent.write d] := by
  cases r with
  | fail msg => exact ⟨_, rfl⟩
  | ok body =>
    cases hA : Atoi body with
    | none => exact ⟨"invalid amount", by simp [saveHandler, hA]⟩
    | some amt =>
      rw [saveHandler_parsed body amt st hA]
      unfold saveLocked
      split
      · exact ⟨_, rfl⟩
      · exact ⟨_, rfl⟩

/-- C9: on every request and every outcome branch — success,
insufficient funds, invalid amount, body-read failure — both handlers
emit a non-empty response body and never call `WriteHeader`, so the
recorded (and hence sent) HTTP status is always 200: the business
outcome is carried only by the response body text. -/
theorem handlers_always_status_200 (r : ReadResult) (st : Ledger) :
    (responseWriterRun 200 (payHandler r st).2).1 = 200 ∧
    (responseWriterRun 200 (saveHandler r st).2).1 = 200 ∧
    countWriteHeaders (payHandler r st).2 = 0 ∧
    countWriteHeaders (saveHandler r st).2 = 0 ∧
    (payHandler r st).2 ≠ [] ∧
    (saveHandler r st).2 ≠ [] := by
  obtain ⟨d1, h1⟩ := payHandler_single_write r st
  obtain ⟨d2, h2⟩ := saveHandler_single_write r st
  rw [h1, h2]
  refine ⟨?_, ?_, ?_, ?_, by simp, by simp⟩
  · simp [responseWriterRun]
  · simp [responseWriterRun]
  · simp [countWriteHeaders]
  · simp [countWriteHeaders]
